import Mathlib

/-!
Picker (src/components/picker/index.js)

A shallow embedding of the `Picker` component: its props, its React state, the
handlers it binds in its constructor, and the lodash calls those handlers make.

Conventions of the embedding

* The handlers in `namespace Picker` give the picker after the dispatch of
  one UI event: there `this.setState` is applied at the point of call. Every
  handler reads `this.state` only before its first `setState`, so the state
  after the event is the same as under React's batched updates.
* `namespace Picker.Batched` gives the inside of one dispatch, for the trigger
  press, where the order of a callback and a state change matters: a
  `setState` made inside an event handler is queued, `this.state` keeps its
  old value while the handler runs, and the host applies the queue when the
  handler has returned (the spec's section 5: the transition happens inside
  the dispatch of the event).
* Calls that leave the component (console warnings, the base class methods
  `onChangeText` and `toggleExpandableModal`, the callbacks `onChange` and
  `onPress`) are appended, in call order, to a trace kept with the instance.
* lodash is modelled from its documented behaviour: `_.xorBy` through
  `baseDifference` and `baseUniq` with the `'value'` property iteratee and
  SameValueZero comparison, `_.join` through `Array.prototype.join`, `_.get`
  as a property read that yields `undefined` on a missing path, `_.invoke` as
  a call that is skipped when the method is absent.
-/

/-- A JavaScript value as far as SameValueZero can tell values apart: the
primitives, and objects (arrays, functions) by reference identity. Numbers
are taken up to SameValueZero, which is an equivalence (NaN equals NaN, +0
equals -0), so structural equality of this type is SameValueZero. -/
inductive JSValue where
  | undefined
  | null
  | bool (b : Bool)
  | num (n : Int)
  | str (s : String)
  | ref (id : Nat)
  deriving DecidableEq, Repr

/-- `ItemType = PropTypes.shape(value: any, label: string)`. A missing `label`
property reads as `undefined`, which is `none` here; a missing `value`
property reads as `JSValue.undefined`. -/
structure Item where
  value : JSValue
  label : Option String
  deriving DecidableEq, Repr

/-- The `value` prop and `state.value`: unset, one item, or an array of items
(`PropTypes.oneOfType(ItemType, PropTypes.arrayOf(ItemType))`). -/
inductive Value where
  | undefined
  | null
  | item (i : Item)
  | arr (xs : List Item)
  deriving DecidableEq, Repr

/-- `Picker.modes`. -/
inductive Mode where
  | SINGLE
  | MULTI
  deriving DecidableEq, Repr

/-- The props the picker's own code reads. `onChange` and `onPress` record
whether the callback was supplied (`_.invoke` skips an absent method). -/
structure Props where
  value : Value
  mode : Mode
  onChange : Bool
  onPress : Bool
  deriving DecidableEq, Repr

/-- `this.state`: `value` and `showExpandableModal` come from the base text
input, `showModal` is the key the picker's constructor adds. -/
structure State where
  value : Value
  showExpandableModal : Bool
  showModal : Bool
  deriving DecidableEq, Repr

/-- One call leaving the component. -/
inductive Effect where
  | warn (msg : String)
  | onChangeText (v : Value)
  | toggleExpandableModal (b : Bool)
  | onChange (v : Value)
  | onPress
  deriving DecidableEq, Repr

/-- A mounted picker: its current props, its state, and the trace of the calls
it has made so far (oldest first). -/
structure Picker where
  props : Props
  state : State
  log : List Effect
  deriving DecidableEq, Repr

/-- The press handler `appendPropsToChildren` hands to a child. -/
inductive Handler where
  | toggleItemSelection
  | onDoneSelecting
  deriving DecidableEq, Repr

/-- What a user or the host application can do to a mounted picker. -/
inductive Event where
  | pressTrigger
  | pressItem (i : Item)
  | pressDone
  | pressCancel
  | receiveProps (next : Props)
  deriving DecidableEq, Repr

/-- One queued `this.setState` call: the key it sets and the new value. -/
inductive Update where
  | value (v : Value)
  | showExpandableModal (b : Bool)
  deriving DecidableEq, Repr

/-- What happens during the dispatch of one UI event, in order: a call leaving
the component, with `this.state` as it stands while that call runs, or the
host applying the queued updates, with the state they give. -/
inductive Observation where
  | call (e : Effect) (visible : State)
  | commit (s : State)
  deriving DecidableEq, Repr

/-- A picker inside the dispatch of one UI event: its props, `this.state`, the
updates queued by `setState` (oldest first) and what has happened so far. -/
structure Dispatch where
  props : Props
  state : State
  pending : List Update
  trace : List Observation
  deriving DecidableEq, Repr

namespace Lodash

/-- `Array.isArray` / `_.isArray`. -/
def isArray : Value → Bool
  | .arr _ => true
  | _ => false

/-- `baseDifference(array, values, iteratee)` with the `'value'` property
iteratee: the elements of `array` whose computed value is not among the
computed values of `values`. -/
def baseDifference (array values : List Item) : List Item :=
  let computedValues := values.map Item.value
  array.filter (fun x => decide (x.value ∉ computedValues))

/-- The loop of `baseUniq(array, iteratee)`: an element is pushed to `result`
(and its computed value to `seen`) unless its computed value was seen. -/
def baseUniqLoop : List Item → List JSValue → List Item → List Item
  | [], _, result => result
  | x :: rest, seen, result =>
    if x.value ∈ seen then baseUniqLoop rest seen result
    else baseUniqLoop rest (seen ++ [x.value]) (result ++ [x])

/-- `baseUniq(array, iteratee)` with the `'value'` property iteratee. -/
def baseUniq (array : List Item) : List Item :=
  baseUniqLoop array [] []

/-- `_.xorBy(value, [item], 'value')`. The arguments that are not array-like
objects are dropped; with both arrays left, `baseXor` takes the difference of
each against the other, flattens and de-duplicates by computed value; with
only `[item]` left it returns `baseUniq([item])`, which is `[item]`. -/
def xorBy (value : Value) (item : Item) : List Item :=
  match value with
  | .arr array =>
    baseUniq (baseDifference array [item] ++ baseDifference [item] array)
  | _ => [item]

/-- The loop of `Array.prototype.join(sep)`: before every element but the
first the separator is appended, then the element, where `undefined` and
`null` count as the empty string. `k` is the index, `r` the string so far. -/
def joinLoop (sep : String) : List (Option String) → Nat → String → String
  | [], _, r => r
  | e :: rest, k, r =>
    let r1 := if k > 0 then r ++ sep else r
    joinLoop sep rest (k + 1) (r1 ++ e.getD "")

/-- `_.join(array, sep)`. -/
def join (array : List (Option String)) (sep : String) : String :=
  joinLoop sep array 0 ""

/-- `_.get(value, 'label')` with no default: `undefined` (here `none`) when
`value` is `undefined` or `null` or has no `label`. On an array it reads the
array's own `label` property, which an array of items does not have. -/
def getLabelProp : Value → Option String
  | .item i => i.label
  | _ => none

end Lodash

namespace Picker

open Lodash

/-- Modelled from the spec: `TextInput.toggleExpandableModal` (the base text
input is not among the sources). Section 4.2: the expandable-modal open/close
primitive sets the modal flag to the given value. -/
def toggleExpandableModal (b : Bool) (p : Picker) : Picker :=
  { p with
    state := { p.state with showExpandableModal := b }
    log := p.log ++ [Effect.toggleExpandableModal b] }

/-- Modelled from the spec: `TextInput.onChangeText` (the base text input is
not among the sources). Section 3: on completing a selection the working value
is replaced wholesale by the value handed over. -/
def onChangeText (v : Value) (p : Picker) : Picker :=
  { p with
    state := { p.state with value := v }
    log := p.log ++ [Effect.onChangeText v] }

/-- `_.invoke(this.props, 'onChange', item)`. -/
def invokeOnChange (v : Value) (p : Picker) : Picker :=
  if p.props.onChange then { p with log := p.log ++ [Effect.onChange v] } else p

/-- `_.invoke(this.props, 'onPress')`. -/
def invokeOnPress (p : Picker) : Picker :=
  if p.props.onPress then { p with log := p.log ++ [Effect.onPress] } else p

/-- `console.warn(msg)`. -/
def warn (msg : String) (p : Picker) : Picker :=
  { p with log := p.log ++ [Effect.warn msg] }

/-- Modelled from the spec: the base text input's constructor, `super(props)`
(not among the sources). Section 3: the state is created from the externally
supplied initial value; section 4.2: the initial modal state is CLOSED. The
`showModal` key is not set by it. -/
def superConstructor (props : Props) : Picker :=
  { props := props
    state := { value := props.value, showExpandableModal := false, showModal := false }
    log := [] }

def warnSingle : String := "Picker in SINGLE mode cannot accpet an array for value"

def warnMulti : String := "Picker in MULTI mode must accpet an array for value"

/-- `constructor(props)`. -/
def constructor (props : Props) : Picker :=
  let p0 := superConstructor props
  let p1 := { p0 with state := { p0.state with showModal := false } }
  let p2 := if props.mode = Mode.SINGLE ∧ isArray props.value = true
    then warn warnSingle p1 else p1
  let p3 := if props.mode = Mode.MULTI ∧ ¬ (isArray props.value = true)
    then warn warnMulti p2 else p2
  p3

/-- `componentWillReceiveProps(nexProps)`. -/
def componentWillReceiveProps (nexProps : Props) (p : Picker) : Picker :=
  { p with state := { p.state with value := nexProps.value } }

/-- `toggleItemSelection(item)`. -/
def toggleItemSelection (item : Item) (p : Picker) : Picker :=
  let value := p.state.value
  let newValue := xorBy value item
  { p with state := { p.state with value := Value.arr newValue } }

/-- `onDoneSelecting(item)`. -/
def onDoneSelecting (item : Value) (p : Picker) : Picker :=
  invokeOnChange item (toggleExpandableModal false (onChangeText item p))

/-- `cancelSelect()`. -/
def cancelSelect (p : Picker) : Picker :=
  toggleExpandableModal false
    { p with state := { p.state with value := p.props.value } }

/-- The `onPress` prop `appendPropsToChildren` gives every child:
`mode === Picker.modes.MULTI ? this.toggleItemSelection : this.onDoneSelecting`. -/
def childOnPress (mode : Mode) : Handler :=
  if mode = Mode.MULTI then Handler.toggleItemSelection else Handler.onDoneSelecting

/-- `appendPropsToChildren()`: every child is cloned with `isSelected` and
`onPress`. `isItemSelected` is `PickerPresenter.isItemSelected`, which is not
among the sources and is taken as a parameter. -/
def appendPropsToChildren (isItemSelected : JSValue → Value → Bool)
    (children : List Item) (p : Picker) : List (Item × Bool × Handler) :=
  let mode := p.props.mode
  let value := p.state.value
  children.map (fun child =>
    (child, isItemSelected child.value value, childOnPress mode))

/-- `getLabel()`. The result is a JavaScript string, or `undefined` (`none`). -/
def getLabel (p : Picker) : Option String :=
  let value := p.state.value
  match value with
  | .arr xs => some (join (xs.map Item.label) ", ")
  | _ => getLabelProp value

/-- `handlePickerOnPress()`. -/
def handlePickerOnPress (p : Picker) : Picker :=
  invokeOnPress (toggleExpandableModal true p)

/-- The `onDone` prop `renderExpandableModal` gives the modal: in MULTI mode
`() => this.onDoneSelecting(this.state.value)`, otherwise `undefined`. -/
def onDone (p : Picker) : Picker :=
  if p.props.mode = Mode.MULTI then onDoneSelecting p.state.value p else p

/-- Running a handler with an argument, as a pressed child does. -/
def runHandler (h : Handler) (i : Item) (p : Picker) : Picker :=
  match h with
  | .toggleItemSelection => toggleItemSelection i p
  | .onDoneSelecting => onDoneSelecting (Value.item i) p

/-- One event. The trigger calls `handlePickerOnPress`. The children and the
cancel and done buttons live inside the modal (`visible=showExpandableModal`),
so they can be pressed only while the flag is set; a pressed child calls the
`onPress` it was given with its item. New props go through
`componentWillReceiveProps` and then replace `this.props`. -/
def step (p : Picker) : Event → Picker
  | .pressTrigger => handlePickerOnPress p
  | .pressItem i =>
    if p.state.showExpandableModal then runHandler (childOnPress p.props.mode) i p else p
  | .pressDone =>
    if p.state.showExpandableModal then onDone p else p
  | .pressCancel =>
    if p.state.showExpandableModal then cancelSelect p else p
  | .receiveProps next =>
    { componentWillReceiveProps next p with props := next }

/-- A sequence of events, in order. -/
def run (p : Picker) (es : List Event) : Picker :=
  es.foldl step p

/-- The pickers a host can bring about: constructed, then driven by events. -/
inductive Reachable : Picker → Prop where
  | init (props : Props) : Reachable (constructor props)
  | next (p : Picker) (e : Event) : Reachable p → Reachable (step p e)

/-- The arguments of the `onChange` calls in a trace, in call order. -/
def onChangeCalls : List Effect → List Value
  | [] => []
  | Effect.onChange v :: rest => v :: onChangeCalls rest
  | _ :: rest => onChangeCalls rest

/-- The warnings in a trace, in call order. -/
def warnings : List Effect → List String
  | [] => []
  | Effect.warn m :: rest => m :: warnings rest
  | _ :: rest => warnings rest

/-- The value transition of `toggleItemSelection` on an array value. -/
def toggleItem (S : List Item) (I : Item) : List Item :=
  xorBy (Value.arr S) I

/-- The spec's wording of the MULTI label, as a second definition to compare
`getLabel` with: the labels in order, a comma and a space between neighbours. -/
def commaSpaceJoined : List String → String
  | [] => ""
  | [l] => l
  | l :: l2 :: rest => l ++ ", " ++ commaSpaceJoined (l2 :: rest)

/-- The item of the spec's examples with value 1 and label A. -/
def itemA : Item := { value := JSValue.num 1, label := some "A" }

/-- The item of the spec's examples with value 2 and label B. -/
def itemB : Item := { value := JSValue.num 2, label := some "B" }

/-- The item of the spec's examples with value 5 and label X. -/
def itemX : Item := { value := JSValue.num 5, label := some "X" }

/-- MULTI props with the value [A] and both callbacks supplied. -/
def propsA : Props :=
  { value := Value.arr [itemA], mode := Mode.MULTI, onChange := true, onPress := true }

/-- MULTI props with the value [B] and both callbacks supplied. -/
def propsB : Props :=
  { value := Value.arr [itemB], mode := Mode.MULTI, onChange := true, onPress := true }

/-- A freshly constructed MULTI picker with the empty selection and both
callbacks supplied. -/
def multiEmpty : Picker :=
  constructor { value := Value.arr [], mode := Mode.MULTI, onChange := true, onPress := true }

/-- A freshly constructed SINGLE picker with no value and both callbacks
supplied. -/
def singleUnset : Picker :=
  constructor { value := Value.undefined, mode := Mode.SINGLE, onChange := true, onPress := true }

end Picker

namespace Picker.Batched

/-- Applying one queued update to `this.state` (React merges the key). -/
def applyUpdate (s : State) : Update → State
  | .value v => { s with value := v }
  | .showExpandableModal b => { s with showExpandableModal := b }

/-- The start of a dispatch: nothing queued, nothing observed. -/
def start (p : Picker) : Dispatch :=
  { props := p.props, state := p.state, pending := [], trace := [] }

/-- `this.setState(update)` inside an event handler: the update is queued and
`this.state` is left as it is until the handler has returned. -/
def setState (u : Update) (d : Dispatch) : Dispatch :=
  { d with pending := d.pending ++ [u] }

/-- Modelled from the spec: `TextInput.toggleExpandableModal` (the base text
input is not among the sources). Section 4.2: the expandable-modal open/close
primitive sets the modal flag to the given value; in a component that is a
`setState` of the flag. -/
def toggleExpandableModal (b : Bool) (d : Dispatch) : Dispatch :=
  setState (Update.showExpandableModal b)
    { d with
      trace := d.trace ++ [Observation.call (Effect.toggleExpandableModal b) d.state] }

/-- `_.invoke(this.props, 'onPress')`. -/
def invokeOnPress (d : Dispatch) : Dispatch :=
  if d.props.onPress then
    { d with trace := d.trace ++ [Observation.call Effect.onPress d.state] }
  else d

/-- `handlePickerOnPress()`, statement by statement. -/
def handlePickerOnPress (d : Dispatch) : Dispatch :=
  invokeOnPress (toggleExpandableModal true d)

/-- The end of a dispatch: the host applies the queued updates in order and
`this.state` changes. -/
def flush (d : Dispatch) : Dispatch :=
  let s := d.pending.foldl applyUpdate d.state
  { d with state := s, pending := [], trace := d.trace ++ [Observation.commit s] }

/-- One trigger press: `handlePickerOnPress` is wired only as the `onPress` of
the text (line 151) and of the button (line 178), so it runs as an event
handler, and the queue is applied when it has returned. -/
def pressTrigger (p : Picker) : Dispatch :=
  flush (handlePickerOnPress (start p))

/-- The calls in a dispatch trace, in order. -/
def calls : List Observation → List Effect
  | [] => []
  | Observation.call e _ :: rest => e :: calls rest
  | Observation.commit _ :: rest => calls rest

/-- Whether an observation is a call of the onPress callback. -/
def isOnPressCall : Observation → Bool
  | Observation.call Effect.onPress _ => true
  | _ => false

end Picker.Batched

namespace Lodash

theorem baseUniqLoop_result (xs : List Item) (seen : List JSValue) (result : List Item) :
    baseUniqLoop xs seen result = result ++ baseUniqLoop xs seen [] := by
  induction xs generalizing seen result with
  | nil => simp [baseUniqLoop]
  | cons x rest ih =>
    unfold baseUniqLoop
    by_cases hx : x.value ∈ seen
    · simp only [hx, if_true]
      exact ih seen result
    · simp only [hx, if_false]
      rw [ih (seen ++ [x.value]) (result ++ [x]), ih (seen ++ [x.value]) ([] ++ [x])]
      simp

theorem baseUniqLoop_cons (x : Item) (rest : List Item) (seen : List JSValue) :
    baseUniqLoop (x :: rest) seen [] =
      if x.value ∈ seen then baseUniqLoop rest seen []
      else x :: baseUniqLoop rest (seen ++ [x.value]) [] := by
  by_cases hx : x.value ∈ seen
  · simp [baseUniqLoop, hx]
  · simp only [baseUniqLoop, hx, if_false]
    rw [baseUniqLoop_result]
    simp

theorem baseUniqLoop_sublist (xs : List Item) (seen : List JSValue) :
    (baseUniqLoop xs seen []).Sublist xs := by
  induction xs generalizing seen with
  | nil => simp [baseUniqLoop]
  | cons x rest ih =>
    rw [baseUniqLoop_cons]
    split
    · exact (ih seen).cons x
    · exact (ih _).cons₂ x

theorem mem_baseUniqLoop_value (xs : List Item) (seen : List JSValue) (v : JSValue) :
    v ∈ (baseUniqLoop xs seen []).map Item.value ↔ v ∈ xs.map Item.value ∧ v ∉ seen := by
  induction xs generalizing seen with
  | nil => simp [baseUniqLoop]
  | cons x rest ih =>
    rw [baseUniqLoop_cons]
    by_cases hx : x.value ∈ seen
    · simp only [hx, if_true, ih, List.map_cons, List.mem_cons]
      constructor
      · rintro ⟨h1, h2⟩
        exact ⟨Or.inr h1, h2⟩
      · rintro ⟨h1 | h1, h2⟩
        · exact absurd (h1 ▸ hx) h2
        · exact ⟨h1, h2⟩
    · simp only [hx, if_false, List.map_cons, List.mem_cons, ih, List.mem_append]
      constructor
      · rintro (h | ⟨h1, h2⟩)
        · exact ⟨Or.inl h, h ▸ hx⟩
        · exact ⟨Or.inr h1, fun h => h2 (Or.inl h)⟩
      · rintro ⟨h1 | h1, h2⟩
        · exact Or.inl h1
        · by_cases hv : v = x.value
          · exact Or.inl hv
          · refine Or.inr ⟨h1, ?_⟩
            rintro (h | h)
            · exact h2 h
            · rcases h with h | h
              · exact hv h
              · cases h

theorem baseUniqLoop_nodup (xs : List Item) (seen : List JSValue) :
    ((baseUniqLoop xs seen []).map Item.value).Nodup := by
  induction xs generalizing seen with
  | nil => simp [baseUniqLoop]
  | cons x rest ih =>
    rw [baseUniqLoop_cons]
    split
    · exact ih seen
    · rw [List.map_cons, List.nodup_cons]
      refine ⟨?_, ih _⟩
      rw [mem_baseUniqLoop_value]
      simp

theorem baseUniqLoop_eq_self (xs : List Item) (seen : List JSValue)
    (hnd : (xs.map Item.value).Nodup) (hdis : ∀ v ∈ xs.map Item.value, v ∉ seen) :
    baseUniqLoop xs seen [] = xs := by
  induction xs generalizing seen with
  | nil => simp [baseUniqLoop]
  | cons x rest ih =>
    rw [baseUniqLoop_cons]
    rw [List.map_cons, List.nodup_cons] at hnd
    have hx : x.value ∉ seen := hdis x.value (by simp)
    simp only [hx, if_false]
    congr 1
    apply ih _ hnd.2
    intro v hv
    simp only [List.mem_append, List.mem_singleton, not_or]
    refine ⟨hdis v (by simp only [List.map_cons, List.mem_cons]; exact Or.inr hv), ?_⟩
    rintro rfl
    exact hnd.1 hv

theorem baseUniqLoop_append_singleton (xs : List Item) (seen : List JSValue) (i : Item)
    (h1 : i.value ∉ seen) (h2 : i.value ∉ xs.map Item.value) :
    baseUniqLoop (xs ++ [i]) seen [] = baseUniqLoop xs seen [] ++ [i] := by
  induction xs generalizing seen with
  | nil => simp [baseUniqLoop, h1]
  | cons x rest ih =>
    simp only [List.map_cons, List.mem_cons, not_or] at h2
    rw [List.cons_append, baseUniqLoop_cons, baseUniqLoop_cons]
    split
    · exact ih seen h1 h2.2
    · rw [List.cons_append]
      congr 1
      apply ih _ _ h2.2
      simp only [List.mem_append, List.mem_singleton, not_or]
      exact ⟨h1, h2.1⟩

theorem baseDifference_singleton_right (S : List Item) (i : Item) :
    baseDifference S [i] = S.filter (fun x => decide (x.value ≠ i.value)) := by
  simp [baseDifference]

theorem baseDifference_singleton_left (S : List Item) (i : Item) :
    baseDifference [i] S = if i.value ∈ S.map Item.value then [] else [i] := by
  by_cases h : i.value ∈ S.map Item.value
  · simp only [h, if_true]
    simp only [baseDifference, List.filter_cons, h, not_true, decide_False]
    simp
  · simp only [h, if_false]
    simp only [baseDifference, List.filter_cons, h, not_false_eq_true, decide_True]
    simp

end Lodash

namespace Picker

open Lodash

theorem toggleItem_present (S : List Item) (I : Item) (h : I.value ∈ S.map Item.value) :
    toggleItem S I = baseUniq (S.filter (fun x => decide (x.value ≠ I.value))) := by
  simp only [toggleItem, xorBy, baseDifference_singleton_right, baseDifference_singleton_left,
    h, if_true, List.append_nil]

theorem toggleItem_absent (S : List Item) (I : Item) (h : I.value ∉ S.map Item.value) :
    toggleItem S I = baseUniq S ++ [I] := by
  have hf : S.filter (fun x => decide (x.value ≠ I.value)) = S := by
    rw [List.filter_eq_self]
    intro x hx
    simp only [decide_eq_true_eq]
    rintro heq
    exact h (heq ▸ List.mem_map_of_mem Item.value hx)
  simp only [toggleItem, xorBy, baseDifference_singleton_right, baseDifference_singleton_left,
    h, if_false, hf]
  exact baseUniqLoop_append_singleton S [] I (by simp) h

theorem toggleItem_nodup (S : List Item) (I : Item) :
    ((toggleItem S I).map Item.value).Nodup := by
  simp only [toggleItem, xorBy]
  exact baseUniqLoop_nodup _ _

theorem mem_toggleItem_value (S : List Item) (I : Item) (v : JSValue) :
    v ∈ (toggleItem S I).map Item.value ↔
      (v ∈ S.map Item.value ∧ v ≠ I.value) ∨ (v = I.value ∧ I.value ∉ S.map Item.value) := by
  by_cases h : I.value ∈ S.map Item.value
  · rw [toggleItem_present S I h, baseUniq, mem_baseUniqLoop_value]
    simp only [List.mem_map, List.mem_filter, decide_eq_true_eq, List.not_mem_nil,
      not_false_eq_true, and_true, h, not_true, and_false, or_false]
    constructor
    · rintro ⟨x, ⟨hx, hne⟩, rfl⟩
      exact ⟨⟨x, hx, rfl⟩, hne⟩
    · rintro ⟨⟨x, hx, rfl⟩, hne⟩
      exact ⟨x, ⟨hx, hne⟩, rfl⟩
  · rw [toggleItem_absent S I h, List.map_append, List.mem_append, baseUniq,
      mem_baseUniqLoop_value]
    simp only [List.not_mem_nil, not_false_eq_true, and_true, List.map_cons, List.map_nil,
      List.mem_singleton, h]
    constructor
    · rintro (hv | hv)
      · exact Or.inl ⟨hv, fun heq => h (heq ▸ hv)⟩
      · exact Or.inr hv
    · rintro (⟨hv, _⟩ | hv)
      · exact Or.inl hv
      · exact Or.inr hv

/-- C1. On a state whose value is the sequence S, toggleItemSelection(I) sets the value to a
sequence R that is the symmetric difference of S and [I] by `value`: when some element of S
has I's value, no element with that value is left and R is a subsequence of S (I is not
added); otherwise R is a subsequence of S (all of S when S has no repeated value) followed
by I; in both cases R has no two entries with the same value, and nothing else changes. -/
theorem toggleItemSelection_symmetric_difference (p : Picker) (S : List Item) (I : Item)
    (hS : p.state.value = Value.arr S) :
    ∃ R : List Item,
      (toggleItemSelection I p).state.value = Value.arr R ∧
      (∀ v, v ∈ R.map Item.value ↔
        (v ∈ S.map Item.value ∧ v ≠ I.value) ∨ (v = I.value ∧ I.value ∉ S.map Item.value)) ∧
      (I.value ∈ S.map Item.value → (∀ x ∈ R, x.value ≠ I.value) ∧ R.Sublist S) ∧
      (I.value ∉ S.map Item.value →
        ∃ R0 : List Item, R = R0 ++ [I] ∧ R0.Sublist S ∧
          ((S.map Item.value).Nodup → R0 = S)) ∧
      (R.map Item.value).Nodup ∧
      (toggleItemSelection I p).state.showExpandableModal = p.state.showExpandableModal ∧
      (toggleItemSelection I p).props = p.props ∧
      (toggleItemSelection I p).log = p.log := by
  refine ⟨toggleItem S I, ?_, mem_toggleItem_value S I, ?_, ?_, toggleItem_nodup S I,
    rfl, rfl, rfl⟩
  · simp [toggleItemSelection, hS, toggleItem]
  · intro h
    constructor
    · intro x hx heq
      have := (mem_toggleItem_value S I x.value).mp (List.mem_map_of_mem Item.value hx)
      rcases this with ⟨_, hne⟩ | ⟨_, hno⟩
      · exact hne heq
      · exact hno h
    · rw [toggleItem_present S I h]
      exact (baseUniqLoop_sublist _ _).trans (List.filter_sublist _)
  · intro h
    refine ⟨baseUniq S, toggleItem_absent S I h, baseUniqLoop_sublist _ _, ?_⟩
    intro hnd
    exact baseUniqLoop_eq_self S [] hnd (by simp)

end Picker

namespace Picker

open Lodash

/-- The witness of C1: toggling B on the one-element selection [A]. -/
theorem toggleItemSelection_symmetric_difference_witness :
    (toggleItemSelection itemA multiEmpty).state.value = Value.arr [itemA] ∧
    ∃ R : List Item,
      (toggleItemSelection itemB (toggleItemSelection itemA multiEmpty)).state.value
        = Value.arr R ∧
      (∀ v, v ∈ R.map Item.value ↔
        (v ∈ [itemA].map Item.value ∧ v ≠ itemB.value) ∨
          (v = itemB.value ∧ itemB.value ∉ [itemA].map Item.value)) ∧
      (itemB.value ∈ [itemA].map Item.value →
        (∀ x ∈ R, x.value ≠ itemB.value) ∧ R.Sublist [itemA]) ∧
      (itemB.value ∉ [itemA].map Item.value →
        ∃ R0 : List Item, R = R0 ++ [itemB] ∧ R0.Sublist [itemA] ∧
          (([itemA].map Item.value).Nodup → R0 = [itemA])) ∧
      (R.map Item.value).Nodup ∧
      (toggleItemSelection itemB (toggleItemSelection itemA multiEmpty)).state.showExpandableModal
        = (toggleItemSelection itemA multiEmpty).state.showExpandableModal ∧
      (toggleItemSelection itemB (toggleItemSelection itemA multiEmpty)).props
        = (toggleItemSelection itemA multiEmpty).props ∧
      (toggleItemSelection itemB (toggleItemSelection itemA multiEmpty)).log
        = (toggleItemSelection itemA multiEmpty).log :=
  ⟨by decide,
   toggleItemSelection_symmetric_difference (toggleItemSelection itemA multiEmpty) [itemA] itemB
    (by decide)⟩

theorem toggleItemSelection_value (p : Picker) (S : List Item) (I : Item)
    (hS : p.state.value = Value.arr S) :
    (toggleItemSelection I p).state.value = Value.arr (toggleItem S I) := by
  simp [toggleItemSelection, hS, toggleItem]

theorem filter_ne_nodup (S : List Item) (v : JSValue) (hnd : (S.map Item.value).Nodup) :
    ((S.filter (fun x => decide (x.value ≠ v))).map Item.value).Nodup :=
  hnd.sublist ((List.filter_sublist S).map Item.value)

theorem value_not_mem_filter_ne (S : List Item) (v : JSValue) :
    v ∉ (S.filter (fun x => decide (x.value ≠ v))).map Item.value := by
  simp only [List.mem_map, List.mem_filter, decide_eq_true_eq, not_exists, not_and]
  rintro x ⟨_, hne⟩ heq
  exact hne heq

theorem toggleItem_twice_absent (S : List Item) (I : Item)
    (hnd : (S.map Item.value).Nodup) (h : I.value ∉ S.map Item.value) :
    toggleItem (toggleItem S I) I = S := by
  have h1 : toggleItem S I = S ++ [I] := by
    rw [toggleItem_absent S I h, baseUniq, baseUniqLoop_eq_self S [] hnd (by simp)]
  have hf : (S ++ [I]).filter (fun x => decide (x.value ≠ I.value)) = S := by
    rw [List.filter_append]
    have : S.filter (fun x => decide (x.value ≠ I.value)) = S := by
      rw [List.filter_eq_self]
      intro x hx
      simp only [decide_eq_true_eq]
      rintro heq
      exact h (heq ▸ List.mem_map_of_mem Item.value hx)
    rw [this]
    simp
  rw [h1, toggleItem_present (S ++ [I]) I (by simp), hf, baseUniq,
    baseUniqLoop_eq_self S [] hnd (by simp)]

theorem toggleItem_twice_present (S : List Item) (I : Item)
    (hnd : (S.map Item.value).Nodup) (h : I.value ∈ S.map Item.value) :
    toggleItem (toggleItem S I) I = S.filter (fun x => decide (x.value ≠ I.value)) ++ [I] := by
  have h1 : toggleItem S I = S.filter (fun x => decide (x.value ≠ I.value)) := by
    rw [toggleItem_present S I h, baseUniq,
      baseUniqLoop_eq_self _ [] (filter_ne_nodup S I.value hnd) (by simp)]
  rw [h1, toggleItem_absent _ I (value_not_mem_filter_ne S I.value), baseUniq,
    baseUniqLoop_eq_self _ [] (filter_ne_nodup S I.value hnd) (by simp)]

/-- C2, the counterexample. Two inputs that meet the claim's condition (at most one element
of S has I's value) on which toggling I twice does not give back S: S = [A, B] with I = A
comes back as [B, A], and S = [A, A] with I = B comes back as [A]. -/
theorem toggle_twice_counterexample :
    (([itemA, itemB].filter (fun x => decide (x.value = itemA.value))).length ≤ 1 ∧
      toggleItem (toggleItem [itemA, itemB] itemA) itemA = [itemB, itemA] ∧
      toggleItem (toggleItem [itemA, itemB] itemA) itemA ≠ [itemA, itemB]) ∧
    (([itemA, itemA].filter (fun x => decide (x.value = itemB.value))).length ≤ 1 ∧
      toggleItem (toggleItem [itemA, itemA] itemB) itemB = [itemA] ∧
      toggleItem (toggleItem [itemA, itemA] itemB) itemB ≠ [itemA, itemA]) := by
  decide

/-- C2, amended. On a state whose value is a sequence S with no two entries of the same
value, toggling I twice gives back S (same items, same order) when I's value does not occur
in S; when it occurs, the two toggles give S without the entries of that value, followed
by I. -/
theorem toggle_twice_amended (p : Picker) (S : List Item) (I : Item)
    (hS : p.state.value = Value.arr S) (hnd : (S.map Item.value).Nodup) :
    (I.value ∉ S.map Item.value →
      (toggleItemSelection I (toggleItemSelection I p)).state.value = Value.arr S) ∧
    (I.value ∈ S.map Item.value →
      (toggleItemSelection I (toggleItemSelection I p)).state.value
        = Value.arr (S.filter (fun x => decide (x.value ≠ I.value)) ++ [I])) := by
  have h2 := toggleItemSelection_value (toggleItemSelection I p) (toggleItem S I) I
    (toggleItemSelection_value p S I hS)
  constructor
  · intro h
    rw [h2, toggleItem_twice_absent S I hnd h]
  · intro h
    rw [h2, toggleItem_twice_present S I hnd h]

/-- The witness of C2 amended: S = [A], I = B. -/
theorem toggle_twice_amended_witness :
    (toggleItemSelection itemA multiEmpty).state.value = Value.arr [itemA] ∧
    ([itemA].map Item.value).Nodup ∧
    (itemB.value ∉ [itemA].map Item.value →
      (toggleItemSelection itemB (toggleItemSelection itemB
        (toggleItemSelection itemA multiEmpty))).state.value = Value.arr [itemA]) ∧
    (itemB.value ∈ [itemA].map Item.value →
      (toggleItemSelection itemB (toggleItemSelection itemB
        (toggleItemSelection itemA multiEmpty))).state.value
        = Value.arr ([itemA].filter (fun x => decide (x.value ≠ itemB.value)) ++ [itemB])) :=
  ⟨by decide, by decide,
   toggle_twice_amended (toggleItemSelection itemA multiEmpty) [itemA] itemB
    (by decide) (by decide)⟩

end Picker

namespace Picker

open Lodash

theorem onChangeCalls_append (l1 l2 : List Effect) :
    onChangeCalls (l1 ++ l2) = onChangeCalls l1 ++ onChangeCalls l2 := by
  induction l1 with
  | nil => simp [onChangeCalls]
  | cons e rest ih => cases e <;> simp [onChangeCalls, ih]

theorem run_append (p : Picker) (es fs : List Event) :
    run p (es ++ fs) = run (run p es) fs := by
  simp [run, List.foldl_append]

theorem run_cons (p : Picker) (e : Event) (es : List Event) :
    run p (e :: es) = run (step p e) es := rfl

/-- Pressing items in MULTI mode while the modal is open only folds the toggle over the
working value. -/
theorem run_pressItems_multi (items : List Item) (q : Picker) (V : List Item)
    (hmode : q.props.mode = Mode.MULTI) (hopen : q.state.showExpandableModal = true)
    (hV : q.state.value = Value.arr V) :
    run q (items.map Event.pressItem) =
      { q with state := { q.state with value := Value.arr (items.foldl toggleItem V) } } := by
  induction items generalizing q V with
  | nil =>
    simp only [List.map_nil, run, List.foldl_nil]
    rw [← hV]
  | cons i rest ih =>
    rw [List.map_cons, run_cons]
    have hstep : step q (Event.pressItem i) = toggleItemSelection i q := by
      simp [step, hopen, hmode, childOnPress, runHandler]
    rw [hstep, ih (toggleItemSelection i q) (toggleItem V i) hmode hopen
      (toggleItemSelection_value q V i hV)]
    simp [toggleItemSelection]

theorem step_pressTrigger_facts (p : Picker) :
    (step p Event.pressTrigger).state.showExpandableModal = true ∧
    (step p Event.pressTrigger).props = p.props ∧
    (step p Event.pressTrigger).state.value = p.state.value ∧
    onChangeCalls (step p Event.pressTrigger).log = onChangeCalls p.log := by
  simp only [step, handlePickerOnPress, invokeOnPress, toggleExpandableModal]
  split <;> simp [onChangeCalls_append, onChangeCalls]

theorem step_pressDone_multi (q : Picker) (hm : q.props.mode = Mode.MULTI)
    (hc : q.props.onChange = true) (hopen : q.state.showExpandableModal = true) :
    step q Event.pressDone =
      { props := q.props
        state := { q.state with showExpandableModal := false }
        log := q.log ++ [Effect.onChangeText q.state.value, Effect.toggleExpandableModal false,
          Effect.onChange q.state.value] } := by
  simp [step, hopen, onDone, hm, onDoneSelecting, invokeOnChange, hc, toggleExpandableModal,
    onChangeText]

/-- C3. In MULTI mode with onChange supplied, from a state whose value is the sequence V:
pressing the trigger, then the items I1..In in order, then "done" leaves the modal closed,
leaves the working value at the fold of the toggle over I1..In from V, and adds exactly one
onChange call, with that value; up to and including the last item press no onChange call
is added and the modal is open. -/
theorem multi_press_items_then_done (p : Picker) (V : List Item) (items : List Item)
    (hmode : p.props.mode = Mode.MULTI) (hcb : p.props.onChange = true)
    (hV : p.state.value = Value.arr V) :
    (run p (Event.pressTrigger :: items.map Event.pressItem ++ [Event.pressDone])
        ).state.showExpandableModal = false ∧
    onChangeCalls (run p (Event.pressTrigger :: items.map Event.pressItem ++ [Event.pressDone])).log
      = onChangeCalls p.log ++ [Value.arr (items.foldl toggleItem V)] ∧
    (run p (Event.pressTrigger :: items.map Event.pressItem ++ [Event.pressDone])).state.value
      = Value.arr (items.foldl toggleItem V) ∧
    onChangeCalls (run p (Event.pressTrigger :: items.map Event.pressItem)).log
      = onChangeCalls p.log ∧
    (run p (Event.pressTrigger :: items.map Event.pressItem)).state.showExpandableModal
      = true := by
  obtain ⟨hopen, hprops, hv, hl⟩ := step_pressTrigger_facts p
  have hm : (step p Event.pressTrigger).props.mode = Mode.MULTI := by rw [hprops]; exact hmode
  have hc : (step p Event.pressTrigger).props.onChange = true := by rw [hprops]; exact hcb
  rw [hV] at hv
  have hpressed := run_pressItems_multi items (step p Event.pressTrigger) V hm hopen hv
  have hpre : run p (Event.pressTrigger :: items.map Event.pressItem) =
      { step p Event.pressTrigger with
        state := { (step p Event.pressTrigger).state with
          value := Value.arr (items.foldl toggleItem V) } } := by
    rw [run_cons, hpressed]
  have hfin : run p (Event.pressTrigger :: items.map Event.pressItem ++ [Event.pressDone]) =
      step (run p (Event.pressTrigger :: items.map Event.pressItem)) Event.pressDone := by
    rw [run_append]
    rfl
  have qm : (run p (Event.pressTrigger :: items.map Event.pressItem)).props.mode
      = Mode.MULTI := by rw [hpre]; exact hm
  have qc : (run p (Event.pressTrigger :: items.map Event.pressItem)).props.onChange
      = true := by rw [hpre]; exact hc
  have qo : (run p (Event.pressTrigger :: items.map Event.pressItem)).state.showExpandableModal
      = true := by rw [hpre]; exact hopen
  have qv : (run p (Event.pressTrigger :: items.map Event.pressItem)).state.value
      = Value.arr (items.foldl toggleItem V) := by rw [hpre]
  have ql : onChangeCalls (run p (Event.pressTrigger :: items.map Event.pressItem)).log
      = onChangeCalls p.log := by rw [hpre]; exact hl
  rw [hfin, step_pressDone_multi _ qm qc qo]
  refine ⟨rfl, ?_, qv, ql, qo⟩
  simp [onChangeCalls_append, onChangeCalls, ql, qv]

/-- The witness of C3: from the empty selection, pressing A, then B, then "done". -/
theorem multi_press_items_then_done_witness :
    multiEmpty.props.mode = Mode.MULTI ∧ multiEmpty.props.onChange = true ∧
    multiEmpty.state.value = Value.arr [] ∧
    (run multiEmpty (Event.pressTrigger :: [itemA, itemB].map Event.pressItem ++ [Event.pressDone])
        ).state.showExpandableModal = false ∧
    onChangeCalls (run multiEmpty
        (Event.pressTrigger :: [itemA, itemB].map Event.pressItem ++ [Event.pressDone])).log
      = onChangeCalls multiEmpty.log ++ [Value.arr ([itemA, itemB].foldl toggleItem [])] ∧
    (run multiEmpty (Event.pressTrigger :: [itemA, itemB].map Event.pressItem ++ [Event.pressDone])
        ).state.value = Value.arr ([itemA, itemB].foldl toggleItem []) ∧
    onChangeCalls (run multiEmpty (Event.pressTrigger :: [itemA, itemB].map Event.pressItem)).log
      = onChangeCalls multiEmpty.log ∧
    (run multiEmpty (Event.pressTrigger :: [itemA, itemB].map Event.pressItem)
        ).state.showExpandableModal = true :=
  ⟨rfl, rfl, rfl, multi_press_items_then_done multiEmpty [] [itemA, itemB] rfl rfl rfl⟩

/-- The example of C3 evaluated: onChange is called once, with [A, B]. -/
theorem multi_press_A_B_done_example :
    onChangeCalls (run multiEmpty
        [Event.pressTrigger, Event.pressItem itemA, Event.pressItem itemB, Event.pressDone]).log
      = [Value.arr [itemA, itemB]] ∧
    (run multiEmpty
        [Event.pressTrigger, Event.pressItem itemA, Event.pressItem itemB, Event.pressDone]
      ).state.showExpandableModal = false := by
  decide

end Picker

namespace Picker

open Lodash

/-- C4, the counterexample. A SINGLE picker constructed without a value, on which X was
selected and the trigger pressed again, is reachable with the modal open; the value it held
immediately before the modal was opened is X, and pressing "cancel" sets the value to the
`value` prop (undefined), not back to X. Likewise a MULTI picker that holds [A], is opened
and is handed the value [B] while open, goes to [B] on "cancel", not back to [A]. -/
theorem cancel_snapshot_counterexample :
    (Reachable (run singleUnset
      [Event.pressTrigger, Event.pressItem itemX, Event.pressTrigger]) ∧
    (run singleUnset
      [Event.pressTrigger, Event.pressItem itemX, Event.pressTrigger]
      ).state.showExpandableModal = true ∧
    (run singleUnset [Event.pressTrigger, Event.pressItem itemX]).state.value
      = Value.item itemX ∧
    (run singleUnset [Event.pressTrigger, Event.pressItem itemX, Event.pressTrigger,
      Event.pressCancel]).state.value = Value.undefined ∧
    (run singleUnset [Event.pressTrigger, Event.pressItem itemX, Event.pressTrigger,
      Event.pressCancel]).state.value
      ≠ (run singleUnset [Event.pressTrigger, Event.pressItem itemX]).state.value) ∧
    (Reachable (run multiEmpty [Event.receiveProps propsA, Event.pressTrigger,
      Event.receiveProps propsB]) ∧
    (run multiEmpty [Event.receiveProps propsA, Event.pressTrigger,
      Event.receiveProps propsB]).state.showExpandableModal = true ∧
    (run multiEmpty [Event.receiveProps propsA]).state.value = Value.arr [itemA] ∧
    (run multiEmpty [Event.receiveProps propsA, Event.pressTrigger,
      Event.receiveProps propsB, Event.pressCancel]).state.value = Value.arr [itemB]) := by
  refine ⟨⟨?_, by decide, by decide, by decide, by decide⟩, ?_, by decide, by decide,
    by decide⟩
  · show Reachable (step (step (step singleUnset Event.pressTrigger) (Event.pressItem itemX))
      Event.pressTrigger)
    exact Reachable.next _ _ (Reachable.next _ _ (Reachable.next _ _
      (Reachable.init
        { value := Value.undefined, mode := Mode.SINGLE, onChange := true, onPress := true })))
  · show Reachable (step (step (step multiEmpty (Event.receiveProps propsA)) Event.pressTrigger)
      (Event.receiveProps propsB))
    exact Reachable.next _ _ (Reachable.next _ _ (Reachable.next _ _
      (Reachable.init
        { value := Value.arr [], mode := Mode.MULTI, onChange := true, onPress := true })))

/-- C4, amended. In every picker state in which the modal is open, pressing "cancel" sets the
working value to the current `value` prop (whatever the value was before the modal was
opened), discarding the pending toggles, closes the modal, leaves the props as they are and
makes no onChange call. -/
theorem cancel_resets_to_value_prop (p : Picker)
    (hopen : p.state.showExpandableModal = true) :
    (step p Event.pressCancel).state.value = p.props.value ∧
    (step p Event.pressCancel).state.showExpandableModal = false ∧
    (step p Event.pressCancel).props = p.props ∧
    onChangeCalls (step p Event.pressCancel).log = onChangeCalls p.log := by
  simp [step, hopen, cancelSelect, toggleExpandableModal, onChangeCalls_append, onChangeCalls]

/-- The witness of C4 amended: a MULTI picker opened and with A toggled in. -/
theorem cancel_resets_to_value_prop_witness :
    (run multiEmpty [Event.pressTrigger, Event.pressItem itemA]).state.showExpandableModal
      = true ∧
    (step (run multiEmpty [Event.pressTrigger, Event.pressItem itemA])
      Event.pressCancel).state.value
      = (run multiEmpty [Event.pressTrigger, Event.pressItem itemA]).props.value ∧
    (step (run multiEmpty [Event.pressTrigger, Event.pressItem itemA])
      Event.pressCancel).state.showExpandableModal = false ∧
    (step (run multiEmpty [Event.pressTrigger, Event.pressItem itemA])
      Event.pressCancel).props
      = (run multiEmpty [Event.pressTrigger, Event.pressItem itemA]).props ∧
    onChangeCalls (step (run multiEmpty [Event.pressTrigger, Event.pressItem itemA])
      Event.pressCancel).log
      = onChangeCalls (run multiEmpty [Event.pressTrigger, Event.pressItem itemA]).log :=
  ⟨by decide,
   cancel_resets_to_value_prop (run multiEmpty [Event.pressTrigger, Event.pressItem itemA])
    (by decide)⟩

/-- When the working value and the `value` prop agree as the trigger is pressed, a MULTI
picker that is opened, has items toggled and is cancelled is back at the pre-open value. -/
theorem cancel_after_toggles_restores_synced_value (p : Picker) (V : List Item)
    (items : List Item) (hmode : p.props.mode = Mode.MULTI)
    (hV : p.state.value = Value.arr V) (hsync : p.props.value = p.state.value) :
    (run p (Event.pressTrigger :: items.map Event.pressItem ++ [Event.pressCancel])
      ).state.value = p.state.value := by
  obtain ⟨hopen, hprops, hv, _⟩ := step_pressTrigger_facts p
  have hm : (step p Event.pressTrigger).props.mode = Mode.MULTI := by rw [hprops]; exact hmode
  rw [hV] at hv
  have hpressed := run_pressItems_multi items (step p Event.pressTrigger) V hm hopen hv
  rw [run_append, run_cons p, hpressed]
  generalize step p Event.pressTrigger = q at hopen hprops
  simp [run, step, hopen, cancelSelect, toggleExpandableModal, hprops, hsync]

/-- C5. In SINGLE mode every child is given the commit handler (onDoneSelecting) as its
onPress, and with onChange supplied, pressing the child item X while the modal is open sets
the state value to X itself, closes the modal and adds exactly one onChange call, whose
argument is X itself (an item, not a sequence). -/
theorem single_press_item_commits (p : Picker) (X : Item)
    (hmode : p.props.mode = Mode.SINGLE) (hcb : p.props.onChange = true)
    (hopen : p.state.showExpandableModal = true) :
    (∀ (isItemSelected : JSValue → Value → Bool) (children : List Item),
      ∀ c ∈ appendPropsToChildren isItemSelected children p,
        c.2.2 = Handler.onDoneSelecting) ∧
    (step p (Event.pressItem X)).state.value = Value.item X ∧
    (step p (Event.pressItem X)).state.showExpandableModal = false ∧
    onChangeCalls (step p (Event.pressItem X)).log = onChangeCalls p.log ++ [Value.item X] ∧
    (step p (Event.pressItem X)).props = p.props := by
  refine ⟨?_, ?_, ?_, ?_, ?_⟩
  · intro f children c hc
    simp only [appendPropsToChildren, List.mem_map] at hc
    obtain ⟨child, _, rfl⟩ := hc
    simp [childOnPress, hmode]
  all_goals
    simp [step, hopen, hmode, childOnPress, runHandler, onDoneSelecting, invokeOnChange, hcb,
      toggleExpandableModal, onChangeText, onChangeCalls_append, onChangeCalls]

/-- The witness of C5: X with value 5 and label X on an opened SINGLE picker. -/
theorem single_press_item_commits_witness :
    (step singleUnset Event.pressTrigger).props.mode = Mode.SINGLE ∧
    (step singleUnset Event.pressTrigger).props.onChange = true ∧
    (step singleUnset Event.pressTrigger).state.showExpandableModal = true ∧
    (∀ (isItemSelected : JSValue → Value → Bool) (children : List Item),
      ∀ c ∈ appendPropsToChildren isItemSelected children (step singleUnset Event.pressTrigger),
        c.2.2 = Handler.onDoneSelecting) ∧
    (step (step singleUnset Event.pressTrigger) (Event.pressItem itemX)).state.value
      = Value.item itemX ∧
    (step (step singleUnset Event.pressTrigger) (Event.pressItem itemX)
      ).state.showExpandableModal = false ∧
    onChangeCalls (step (step singleUnset Event.pressTrigger) (Event.pressItem itemX)).log
      = onChangeCalls (step singleUnset Event.pressTrigger).log ++ [Value.item itemX] ∧
    (step (step singleUnset Event.pressTrigger) (Event.pressItem itemX)).props
      = (step singleUnset Event.pressTrigger).props :=
  ⟨by decide, by decide, by decide,
   single_press_item_commits (step singleUnset Event.pressTrigger) itemX
    (by decide) (by decide) (by decide)⟩

/-- The example of C5 evaluated: onChange is called once, with X itself. -/
theorem single_press_X_example :
    onChangeCalls (run singleUnset [Event.pressTrigger, Event.pressItem itemX]).log
      = [Value.item itemX] ∧
    (run singleUnset [Event.pressTrigger, Event.pressItem itemX]).state.showExpandableModal
      = false := by
  decide

end Picker

namespace Picker

open Lodash

theorem joinLoop_succ (ls : List String) (k : Nat) (r : String) :
    joinLoop ", " (ls.map some) (k + 1) r =
      match ls with
      | [] => r
      | l :: rest => r ++ ", " ++ commaSpaceJoined (l :: rest) := by
  induction ls generalizing k r with
  | nil => simp [joinLoop]
  | cons l rest ih =>
    simp only [List.map_cons, joinLoop, Nat.succ_pos, if_true, gt_iff_lt, Option.getD_some]
    rw [ih (k + 1) (r ++ ", " ++ l)]
    cases rest with
    | nil => simp [commaSpaceJoined]
    | cons l2 rest2 => simp [commaSpaceJoined, String.append_assoc]

theorem join_eq_commaSpaceJoined (ls : List String) :
    join (ls.map some) ", " = commaSpaceJoined ls := by
  cases ls with
  | nil => simp [join, joinLoop, commaSpaceJoined]
  | cons l rest =>
    simp only [join, List.map_cons, joinLoop, gt_iff_lt, Nat.lt_irrefl, if_false,
      Option.getD_some, String.empty_append, Nat.zero_add]
    rw [joinLoop_succ rest 0 l]
    cases rest with
    | nil => simp [commaSpaceJoined]
    | cons l2 rest2 => simp [commaSpaceJoined]

theorem intercalate_go_eq (ls : List String) (r : String) :
    String.intercalate.go r ", " ls =
      match ls with
      | [] => r
      | l :: rest => r ++ ", " ++ commaSpaceJoined (l :: rest) := by
  induction ls generalizing r with
  | nil => simp [String.intercalate.go]
  | cons l rest ih =>
    simp only [String.intercalate.go]
    rw [ih (r ++ ", " ++ l)]
    cases rest with
    | nil => simp [commaSpaceJoined]
    | cons l2 rest2 => simp [commaSpaceJoined, String.append_assoc]

theorem commaSpaceJoined_eq_intercalate (ls : List String) :
    commaSpaceJoined ls = String.intercalate ", " ls := by
  cases ls with
  | nil => simp [commaSpaceJoined, String.intercalate]
  | cons l rest =>
    simp only [String.intercalate]
    rw [intercalate_go_eq rest l]
    cases rest with
    | nil => simp [commaSpaceJoined]
    | cons l2 rest2 => simp [commaSpaceJoined]

/-- C6. On a state whose value is a sequence of items with string labels l1, ..., ln,
getLabel returns those labels in the sequence's order with the two-character separator
", " (comma, space) between neighbours: the empty string for the empty sequence, the bare
label for one item, and l1 followed by ", " and the joined rest otherwise; this is the
library's intercalation of the labels with ", ". -/
theorem getLabel_sequence_joins_labels (p : Picker) (items : List (JSValue × String))
    (hS : p.state.value =
      Value.arr (items.map (fun vl => { value := vl.1, label := some vl.2 }))) :
    getLabel p = some (commaSpaceJoined (items.map Prod.snd)) ∧
    getLabel p = some (String.intercalate ", " (items.map Prod.snd)) ∧
    (items = [] → getLabel p = some "") ∧
    (∀ v l, items = [(v, l)] → getLabel p = some l) ∧
    (∀ v l vl rest, items = (v, l) :: vl :: rest →
      getLabel p = some (l ++ ", " ++ commaSpaceJoined ((vl :: rest).map Prod.snd))) ∧
    ", ".data = [',', ' '] := by
  have h : getLabel p = some (commaSpaceJoined (items.map Prod.snd)) := by
    simp only [getLabel, hS, List.map_map]
    rw [← join_eq_commaSpaceJoined, List.map_map]
    rfl
  refine ⟨h, ?_, ?_, ?_, ?_, rfl⟩
  · rw [h, commaSpaceJoined_eq_intercalate]
  · rintro rfl
    rw [h]; rfl
  · rintro v l rfl
    rw [h]; rfl
  · rintro v l vl rest rfl
    rw [h]; rfl

/-- The witness of C6: the selection [A, B] has the label "A, B". -/
theorem getLabel_sequence_joins_labels_witness :
    (run multiEmpty [Event.pressTrigger, Event.pressItem itemA, Event.pressItem itemB]
      ).state.value
      = Value.arr ([(JSValue.num 1, "A"), (JSValue.num 2, "B")].map
          (fun vl => { value := vl.1, label := some vl.2 })) ∧
    getLabel (run multiEmpty [Event.pressTrigger, Event.pressItem itemA, Event.pressItem itemB])
      = some "A, B" :=
  ⟨by decide,
   (getLabel_sequence_joins_labels
      (run multiEmpty [Event.pressTrigger, Event.pressItem itemA, Event.pressItem itemB])
      [(JSValue.num 1, "A"), (JSValue.num 2, "B")] (by decide)).1.trans (by decide)⟩

end Picker

namespace Picker

open Lodash

/-- C7, the counterexample. On a picker whose value is unset, and on one whose value is an
item that carries no label, getLabel returns undefined (`none`), which is not the empty
string. -/
theorem getLabel_unset_counterexample :
    singleUnset.state.value = Value.undefined ∧
    getLabel singleUnset = none ∧
    getLabel singleUnset ≠ some "" ∧
    getLabel (step (step singleUnset Event.pressTrigger)
      (Event.pressItem { value := JSValue.num 5, label := none })) = none := by
  decide

/-- C7, amended. On a state whose value is not a sequence, getLabel returns the item's label
when the value is an item that carries one, and undefined (`none`), not the empty string,
when the value is undefined or null or an item without a label; it is defined on every
such state. -/
theorem getLabel_non_sequence (p : Picker) (hns : isArray p.state.value = false) :
    (∀ v l, p.state.value = Value.item { value := v, label := some l } →
      getLabel p = some l) ∧
    (∀ v, p.state.value = Value.item { value := v, label := none } → getLabel p = none) ∧
    (p.state.value = Value.undefined → getLabel p = none) ∧
    (p.state.value = Value.null → getLabel p = none) ∧
    (∃ r, getLabel p = r ∧
      (r = none ∨ ∃ i, p.state.value = Value.item i ∧ i.label = r)) := by
  refine ⟨?_, ?_, ?_, ?_, ?_⟩
  · intro v l h
    simp [getLabel, h, getLabelProp]
  · intro v h
    simp [getLabel, h, getLabelProp]
  · intro h
    simp [getLabel, h, getLabelProp]
  · intro h
    simp [getLabel, h, getLabelProp]
  · refine ⟨getLabel p, rfl, ?_⟩
    cases hv : p.state.value with
    | undefined => left; simp [getLabel, hv, getLabelProp]
    | null => left; simp [getLabel, hv, getLabelProp]
    | item i => right; exact ⟨i, rfl, by simp [getLabel, hv, getLabelProp]⟩
    | arr xs => rw [hv] at hns; simp [isArray] at hns

/-- The witness of C7 amended: a SINGLE picker on which X was selected. -/
theorem getLabel_non_sequence_witness :
    isArray (run singleUnset [Event.pressTrigger, Event.pressItem itemX]).state.value
      = false ∧
    getLabel (run singleUnset [Event.pressTrigger, Event.pressItem itemX]) = some "X" :=
  ⟨by decide,
   (getLabel_non_sequence (run singleUnset [Event.pressTrigger, Event.pressItem itemX])
      (by decide)).1 (JSValue.num 5) "X" (by decide)⟩

/-- The calls of one trigger press in the order the handler makes them, and the picker
after the event. -/
theorem handlePickerOnPress_calls (p : Picker) (hcb : p.props.onPress = true) :
    (handlePickerOnPress p).log = p.log ++ [Effect.toggleExpandableModal true, Effect.onPress] ∧
    (handlePickerOnPress p).state.showExpandableModal = true ∧
    (handlePickerOnPress p).state.value = p.state.value ∧
    (handlePickerOnPress p).props = p.props := by
  simp [handlePickerOnPress, invokeOnPress, toggleExpandableModal, hcb]

/-- The dispatch of a trigger press ends in the picker that `handlePickerOnPress` gives:
same props, same state, same calls in the same order. -/
theorem pressTrigger_dispatch_agrees (p : Picker) :
    (Batched.pressTrigger p).props = (handlePickerOnPress p).props ∧
    (Batched.pressTrigger p).state = (handlePickerOnPress p).state ∧
    p.log ++ Batched.calls (Batched.pressTrigger p).trace = (handlePickerOnPress p).log ∧
    (Batched.pressTrigger p).pending = [] := by
  by_cases hcb : p.props.onPress = true <;>
    simp [Batched.pressTrigger, Batched.flush, Batched.handlePickerOnPress,
      Batched.invokeOnPress, Batched.toggleExpandableModal, Batched.setState, Batched.start,
      Batched.applyUpdate, Batched.calls, handlePickerOnPress, invokeOnPress,
      toggleExpandableModal, hcb]

/-- C8. With an onPress callback supplied, the dispatch of one trigger press
(handlePickerOnPress, run as the event handler it is wired as) observes three things in this
order: the call toggleExpandableModal(true), which queues the update of the modal flag; the
onPress call, made exactly once, while this.state is still the state from before the press
(a closed modal is still closed); and then the commit that sets the modal flag to OPEN. The
onPress call therefore precedes the transition of the flag, and the dispatch ends with the
modal open. -/
theorem onPress_precedes_modal_open (p : Picker) (hcb : p.props.onPress = true) :
    (Batched.pressTrigger p).trace =
      [Observation.call (Effect.toggleExpandableModal true) p.state,
       Observation.call Effect.onPress p.state,
       Observation.commit { p.state with showExpandableModal := true }] ∧
    ((Batched.pressTrigger p).trace.filter Batched.isOnPressCall).length = 1 ∧
    (Batched.pressTrigger p).trace.indexOf (Observation.call Effect.onPress p.state)
      < (Batched.pressTrigger p).trace.indexOf
          (Observation.commit { p.state with showExpandableModal := true }) ∧
    (∀ s, Observation.call Effect.onPress s ∈ (Batched.pressTrigger p).trace →
      s.showExpandableModal = p.state.showExpandableModal) ∧
    (∀ s, Observation.commit s ∈ (Batched.pressTrigger p).trace →
      s.showExpandableModal = true) ∧
    (Batched.pressTrigger p).state.showExpandableModal = true := by
  have ht : (Batched.pressTrigger p).trace =
      [Observation.call (Effect.toggleExpandableModal true) p.state,
       Observation.call Effect.onPress p.state,
       Observation.commit { p.state with showExpandableModal := true }] := by
    simp [Batched.pressTrigger, Batched.flush, Batched.handlePickerOnPress,
      Batched.invokeOnPress, Batched.toggleExpandableModal, Batched.setState, Batched.start,
      Batched.applyUpdate, hcb]
  refine ⟨ht, ?_, ?_, ?_, ?_, ?_⟩
  · rw [ht]
    simp [List.filter, Batched.isOnPressCall]
  · rw [ht]
    simp [List.indexOf_cons]
  · intro s hs
    rw [ht] at hs
    simp at hs
    rw [hs]
  · intro s hs
    rw [ht] at hs
    simp at hs
    rw [hs]
  · simp [Batched.pressTrigger, Batched.flush, Batched.handlePickerOnPress,
      Batched.invokeOnPress, Batched.toggleExpandableModal, Batched.setState, Batched.start,
      Batched.applyUpdate, hcb]

/-- The witness of C8: a fresh (closed) MULTI picker with onPress supplied. -/
theorem onPress_precedes_modal_open_witness :
    multiEmpty.props.onPress = true ∧
    multiEmpty.state.showExpandableModal = false ∧
    (Batched.pressTrigger multiEmpty).trace =
      [Observation.call (Effect.toggleExpandableModal true) multiEmpty.state,
       Observation.call Effect.onPress multiEmpty.state,
       Observation.commit { multiEmpty.state with showExpandableModal := true }] ∧
    ((Batched.pressTrigger multiEmpty).trace.filter Batched.isOnPressCall).length = 1 ∧
    (Batched.pressTrigger multiEmpty).trace.indexOf
        (Observation.call Effect.onPress multiEmpty.state)
      < (Batched.pressTrigger multiEmpty).trace.indexOf
          (Observation.commit { multiEmpty.state with showExpandableModal := true }) ∧
    (∀ s, Observation.call Effect.onPress s ∈ (Batched.pressTrigger multiEmpty).trace →
      s.showExpandableModal = multiEmpty.state.showExpandableModal) ∧
    (∀ s, Observation.commit s ∈ (Batched.pressTrigger multiEmpty).trace →
      s.showExpandableModal = true) ∧
    (Batched.pressTrigger multiEmpty).state.showExpandableModal = true :=
  ⟨by decide, by decide, onPress_precedes_modal_open multiEmpty (by decide)⟩

/-- C9. For every mode and every initial value the constructor returns a picker (closed,
holding the given props and value) whose trace is: exactly the SINGLE-mode warning when the
mode is SINGLE and the value is an array, exactly the MULTI-mode warning when the mode is
MULTI and the value is not an array (undefined and null included), and empty otherwise; so
each warning is logged if and only if its condition holds, and never both. -/
theorem constructor_warns_iff_shape_mismatch (props : Props) :
    (constructor props).log =
      (if props.mode = Mode.SINGLE ∧ isArray props.value = true then [Effect.warn warnSingle]
       else if props.mode = Mode.MULTI ∧ isArray props.value = false
         then [Effect.warn warnMulti]
       else []) ∧
    (Effect.warn warnSingle ∈ (constructor props).log ↔
      props.mode = Mode.SINGLE ∧ isArray props.value = true) ∧
    (Effect.warn warnMulti ∈ (constructor props).log ↔
      props.mode = Mode.MULTI ∧ isArray props.value = false) ∧
    ¬ (Effect.warn warnSingle ∈ (constructor props).log ∧
        Effect.warn warnMulti ∈ (constructor props).log) ∧
    (warnings (constructor props).log).length ≤ 1 ∧
    (constructor props).props = props ∧
    (constructor props).state.value = props.value ∧
    (constructor props).state.showExpandableModal = false := by
  have hne : warnSingle ≠ warnMulti := by decide
  obtain ⟨value, mode, c1, c2⟩ := props
  cases mode <;> cases hv : isArray value <;>
    simp [constructor, superConstructor, warn, hv, warnings, hne, hne.symm]

/-- C10. For every picker state and every newly supplied props with value V',
componentWillReceiveProps sets the working value to exactly V' and leaves the modal flag,
the props and the trace (so no onChange call) as they were; as an event, the new props then
replace the old ones. This holds whether the modal is open or closed. -/
theorem componentWillReceiveProps_overwrites_value (p : Picker) (nexProps : Props) :
    (componentWillReceiveProps nexProps p).state.value = nexProps.value ∧
    (componentWillReceiveProps nexProps p).state.showExpandableModal
      = p.state.showExpandableModal ∧
    (componentWillReceiveProps nexProps p).log = p.log ∧
    (step p (Event.receiveProps nexProps)).state.value = nexProps.value ∧
    (step p (Event.receiveProps nexProps)).state.showExpandableModal
      = p.state.showExpandableModal ∧
    (step p (Event.receiveProps nexProps)).props = nexProps ∧
    onChangeCalls (step p (Event.receiveProps nexProps)).log = onChangeCalls p.log := by
  simp [componentWillReceiveProps, step]

end Picker
